import Mathlib

/-!
Shallow embedding of the task-routing core of the AgentRecommend repository:
`src/agents/utils/function_caller_model.py` (class `LiteLLMFunctionCaller`)
and `src/agents/utils/MultiAgentRouter.py` (class `MultiAgentRouter`).

External effects (the litellm completion endpoint, `json.loads`,
pydantic validation, the wall clock, `uuid.uuid4`) are modelled as
explicit parameters; the repository's own control flow (fence
stripping, registry validation, record assembly, batch loops) is
translated line by line.
-/

namespace AgentRecommend

/-! ### Python string primitives

`str.strip(chars)` in Python removes, from both ends of the string,
every character that occurs in `chars` (a character *set*, not a
prefix/suffix), stopping at the first character not in the set.
`str.strip()` with no argument removes whitespace. We model strings
as their character lists.
-/

/-- Python `str.strip(chars)` on a character list: drop characters
belonging to `cs` from both ends. -/
def pyStripList (cs : List Char) (l : List Char) : List Char :=
  ((l.dropWhile (fun c => cs.contains c)).reverse.dropWhile
    (fun c => cs.contains c)).reverse

/-- Python `str.strip(chars)` on a string. -/
def pyStripChars (cs : List Char) (s : String) : String :=
  String.mk (pyStripList cs s.toList)

/-- The ASCII whitespace characters stripped by Python `str.strip()`
(space, tab, newline, carriage return, vertical tab, form feed). -/
def pyWhitespace : List Char :=
  [' ', '\t', '\n', '\r', Char.ofNat 11, Char.ofNat 12]

/-- Python `str.strip()` (no argument): strip whitespace. -/
def pyStripWs (s : String) : String := pyStripChars pyWhitespace s

/-- Python `str.startswith(pre)`. -/
def pyStartswith (pre s : String) : Bool := pre.toList.isPrefixOf s.toList

/-! ### `LiteLLMFunctionCaller` (function_caller_model.py)

The class holds a model name, system prompt, optional pydantic base
model, api key, temperature and token budget; of these only the
behavioural parts matter for the spec: the completion round trip
(`litellm.completion`, which may raise), `json.loads` (which may
raise), and `base_model.model_validate` (which may raise).  Each
fallible external step is modelled as an `Option`-returning function;
`none` stands for the exception the `try`/`except` of `run` catches.
When no base model is declared the code returns the parsed dictionary
unchanged, which is the instance `validate := some` at `β = α`. -/

structure LiteLLMFunctionCaller (α β : Type) where
  complete : String → Option String
  jsonLoads : String → Option α
  validate : α → Option β

/-- Lines 43-45 of function_caller_model.py:
`if content.startswith("```json"): content = content.strip("```json").strip("```").strip()`. -/
def stripFences (content : String) : String :=
  if pyStartswith "```json" content then
    pyStripWs (pyStripChars "```".toList (pyStripChars "```json".toList content))
  else content

/-- The body of `run` from the received content on: strip fences,
parse JSON, validate. A `none` anywhere is caught by the `except`
and surfaces as the return value `None`. -/
def LiteLLMFunctionCaller.runContent (env : LiteLLMFunctionCaller α β)
    (content : String) : Option β :=
  match env.jsonLoads (stripFences content) with
  | none => none
  | some parsed => env.validate parsed

/-- Method `LiteLLMFunctionCaller.run` (lines 28-56): one completion round
trip, then fence stripping, JSON parsing and validation; any failure
returns `None` instead of raising. -/
def LiteLLMFunctionCaller.run (env : LiteLLMFunctionCaller α β)
    (task : String) : Option β :=
  match env.complete task with
  | none => none
  | some content => env.runContent content

/-- Method `batch_run` (lines 59-60): `[self.run(task) for task in tasks]`. -/
def LiteLLMFunctionCaller.batch_run (env : LiteLLMFunctionCaller α β)
    (tasks : List String) : List (Option β) :=
  tasks.map env.run

/-- A thread pool executing one call per index, in an arbitrary
completion order `order`: each finished call writes its result into
the slot of its own index. `executor.map` then reads the slots in
index order. An unfilled slot reads as `none`. -/
def runSchedule (g : Nat → γ) (n : Nat) (order : List Nat) : List (Option γ) :=
  order.foldl (fun acc i => acc.set i (some (g i))) (List.replicate n none)

/-- Method `concurrent_run` (lines 62-64): `executor.map(self.run, tasks)`
over a `ThreadPoolExecutor(max_workers=len(tasks))`, with the workers
finishing in the arbitrary order `order`; the output slot of each task
is its input position. Constructing the pool raises
`ValueError: max_workers must be greater than 0` when `len(tasks)` is 0
(CPython checks `max_workers <= 0` in `ThreadPoolExecutor.__init__`),
before any task is mapped; there is no `try`/`except` here, so the
exception escapes to the caller — the `Except.error` branch. -/
def LiteLLMFunctionCaller.concurrent_run (env : LiteLLMFunctionCaller α β)
    (tasks : List String) (order : List Nat) :
    Except String (List (Option (Option β))) :=
  if tasks.length = 0 then
    .error "ValueError: max_workers must be greater than 0"
  else
    .ok (runSchedule (fun i => env.run (tasks.getD i "")) tasks.length order)

/-! ### Lemmas about the Python string primitives -/

theorem toList_append (s t : String) : (s ++ t).toList = s.toList ++ t.toList := by
  simp [String.toList]

theorem dropWhile_append_sat (p : α → Bool) (l1 l2 : List α)
    (h : ∀ a ∈ l1, p a = true) :
    (l1 ++ l2).dropWhile p = l2.dropWhile p := by
  induction l1 with
  | nil => simp
  | cons a l ih =>
      rw [List.cons_append, List.dropWhile_cons, if_pos (h a (List.mem_cons_self a l))]
      exact ih (fun x hx => h x (List.mem_cons_of_mem a hx))

/-- Stripping a character-set from both ends ignores a leading run and a
trailing run of characters from that set. -/
theorem pyStripList_sandwich (cs : List Char) (l1 l l2 : List Char)
    (h1 : ∀ c ∈ l1, c ∈ cs) (h2 : ∀ c ∈ l2, c ∈ cs) :
    pyStripList cs (l1 ++ l ++ l2) = pyStripList cs l := by
  unfold pyStripList
  rw [List.append_assoc,
    dropWhile_append_sat _ l1 _ (fun a ha => by simpa using h1 a ha),
    List.dropWhile_append]
  by_cases hnil : (l.dropWhile (fun c => cs.contains c)).isEmpty = true
  · rw [if_pos hnil]
    have hl2 : l2.dropWhile (fun c => cs.contains c) = [] :=
      List.dropWhile_eq_nil_iff.mpr (fun x hx => by simpa using h2 x hx)
    have hl : l.dropWhile (fun c => cs.contains c) = [] := by
      simpa [List.isEmpty_iff] using hnil
    rw [hl2, hl]
  · rw [if_neg hnil, List.reverse_append,
      dropWhile_append_sat _ l2.reverse _
        (fun x hx => by simpa using h2 x (List.mem_reverse.mp hx))]

/-- Stripping a character-set from a list whose first and last characters
are outside the set is the identity. -/
theorem pyStripList_id_of_ends (cs : List Char) (a b : Char) (l : List Char)
    (ha : a ∉ cs) (hb : b ∉ cs) :
    pyStripList cs (a :: (l ++ [b])) = a :: (l ++ [b]) := by
  unfold pyStripList
  rw [List.dropWhile_cons, if_neg (by simpa using ha)]
  rw [List.reverse_cons, List.reverse_append, List.reverse_singleton,
    List.singleton_append, List.cons_append, List.dropWhile_cons,
    if_neg (by simpa using hb)]
  simp

/-- The full effect of lines 44-45 on a reply of the shape
three-backticks-json, newline, payload, newline, three backticks: the
two character-set strips peel the fences and the final `strip()`
whitespace-strips the payload. -/
theorem pyStripList_wrapped (L : List Char) :
    pyStripList pyWhitespace
      (pyStripList "```".toList
        (pyStripList "```json".toList
          ("```json\n".toList ++ L ++ "\n```".toList)))
      = pyStripList pyWhitespace L := by
  have e1 : "```json\n".toList ++ L ++ "\n```".toList
      = "```json".toList ++ ('\n' :: (L ++ ['\n'])) ++ "```".toList := by
    have h1 : "```json\n".toList = "```json".toList ++ ['\n'] := rfl
    have h2 : "\n```".toList = '\n' :: "```".toList := rfl
    rw [h1, h2]
    simp
  rw [e1, pyStripList_sandwich "```json".toList _ _ _ (by decide) (by decide)]
  rw [pyStripList_id_of_ends "```json".toList '\n' '\n' L (by decide) (by decide)]
  rw [pyStripList_id_of_ends "```".toList '\n' '\n' L (by decide) (by decide)]
  have e2 : '\n' :: (L ++ ['\n']) = ['\n'] ++ L ++ ['\n'] := by simp
  rw [e2, pyStripList_sandwich pyWhitespace _ _ _ (by decide) (by decide)]

/-- On a fence-wrapped reply, `stripFences` returns the
whitespace-stripped payload. -/
theorem stripFences_wrapped (t : String) :
    stripFences ("```json\n" ++ t ++ "\n```") = pyStripWs t := by
  have hw : ("```json\n" ++ t ++ "\n```").toList
      = "```json\n".toList ++ t.toList ++ "\n```".toList := by
    rw [toList_append, toList_append]
  have hpre : pyStartswith "```json" ("```json\n" ++ t ++ "\n```") = true := by
    unfold pyStartswith
    rw [List.isPrefixOf_iff_prefix, hw, List.append_assoc]
    exact List.IsPrefix.trans ⟨['\n'], rfl⟩ (List.prefix_append _ _)
  unfold stripFences
  rw [if_pos hpre]
  unfold pyStripWs pyStripChars
  exact congrArg String.mk (by rw [hw]; exact pyStripList_wrapped t.toList)

/-- Function `stripFences` leaves a reply that does not start with a json fence
untouched. -/
theorem stripFences_bare (t : String) (h : pyStartswith "```json" t = false) :
    stripFences t = t := by
  unfold stripFences
  rw [h]
  simp

/-! ### `MultiAgentRouter` (MultiAgentRouter.py)

The swarms `Agent` collaborators are opaque to the router except for
`name`, `id`, `description` and the `run` entry point; an agent is
modelled by exactly that interface, with `run` a pure function (the
router stores its return value verbatim). The boss decision step
`self.function_caller.run(task)` and the stringifier `any_to_str` are
external effects and enter as fields of the router model; the
function caller may return `None` (its internal `except` branch),
hence `Option AgentResponse`.  Wall-clock reads and `uuid.uuid4()`
are modelled by a per-call `CallMeta` of ambient values.  Exceptions
raised by `route_task` are the `Except.error` branch, carrying the
exception text. -/

/-- The `AgentResponse` pydantic model (MultiAgentRouter.py lines 16-27). -/
structure AgentResponse where
  selected_agent : String
  reasoning : String
  modified_task : Option String
deriving DecidableEq, Repr

/-- The interface of a swarms `Agent` as consumed by the router. -/
structure Agent where
  name : String
  id : String
  description : String
  run : String → String

/-- One turn of the swarms `Conversation` log (`conversation.add(role, content)`). -/
structure Turn where
  role : String
  content : String
deriving DecidableEq, Repr

/-- Python truthiness of an optional string: `None` and `""` are falsy.
Used by `if boss_response.modified_task` on line 204. -/
def pyTruthy : Option String → Bool
  | none => false
  | some s => !s.isEmpty

/-- The `task` sub-dictionary of the result (lines 200-207). -/
structure TaskInfo where
  original : String
  modified : Option String
deriving DecidableEq, Repr

/-- The `boss_decision` sub-dictionary of the result (lines 208-211). -/
structure BossDecision where
  selected_agent : String
  reasoning : String
deriving DecidableEq, Repr

/-- The `execution` sub-dictionary of the result (lines 212-222).
Times are abstract clock readings (`Nat`). -/
structure ExecutionInfo where
  agent_name : String
  agent_id : String
  was_executed : Bool
  response : Option String
  execution_time : Option Nat
deriving DecidableEq, Repr

/-- The result dictionary assembled by `route_task` (lines 197-224);
the spec calls it TaskRecord. -/
structure TaskRecord where
  id : String
  timestamp : String
  task : TaskInfo
  boss_decision : BossDecision
  execution : ExecutionInfo
  total_time : Nat
deriving DecidableEq, Repr

/-- Ambient values consumed by one `route_task` call: the fresh
`uuid.uuid4()`, the `datetime.now().isoformat()` timestamp, and the
two elapsed-time measurements. -/
structure CallMeta where
  freshId : String
  timestamp : String
  execution_time : Nat
  total_time : Nat
deriving DecidableEq, Repr

/-- The state of a `MultiAgentRouter` instance relevant to routing:
the agent registry, the `execute_task` flag, the boss decision step
(`self.function_caller.run`) and the `any_to_str` stringifier. -/
structure MultiAgentRouter where
  agents : List Agent
  execute_task : Bool
  function_caller : String → Option AgentResponse
  any_to_str : Option AgentResponse → String

/-- Lookup in the dictionary `{agent.name: agent for agent in agents}`
built on line 80: among agents with the given name, the last
registration wins (dict comprehension overwrite). -/
def registryLookup (agents : List Agent) (name : String) : Option Agent :=
  (agents.filter (fun a => a.name == name)).getLast?

/-- The registered handler names (the keys of `self.agents`). -/
def registeredNames (agents : List Agent) : List String :=
  agents.map (fun a => a.name)

/-- Method `route_task` (lines 140-233), threading the conversation log.
Returns the grown log and either the result dictionary or the raised
exception's text. The failure branches in order of occurrence:
the decision step returning `None` makes line 164's attribute access
raise; a selected agent outside the registry raises the
`ValueError` of lines 165-167. `final_task = task` is line 174
(the modified-task variant on line 173 is commented out in the
source). -/
def MultiAgentRouter.route_task (env : MultiAgentRouter) (meta : CallMeta)
    (conv : List Turn) (task : String) :
    List Turn × Except String TaskRecord :=
  let conv1 := conv ++ [⟨"user", task⟩]
  match env.function_caller task with
  | none =>
      let conv2 := conv1 ++ [⟨"assistant", env.any_to_str none⟩]
      (conv2, .error "AttributeError: NoneType object has no attribute selected_agent")
  | some b =>
      let conv2 := conv1 ++ [⟨"assistant", env.any_to_str (some b)⟩]
      match registryLookup env.agents b.selected_agent with
      | none =>
          (conv2, .error ("Boss selected unknown agent: " ++ b.selected_agent))
      | some sel =>
          let final_task := task
          let agent_response : Option String :=
            if env.execute_task then some (sel.run final_task) else none
          let conv3 :=
            match agent_response with
            | some resp => conv2 ++ [⟨sel.name, resp⟩]
            | none => conv2
          (conv3, .ok
            { id := meta.freshId
              timestamp := meta.timestamp
              task :=
                { original := task
                  modified :=
                    if pyTruthy b.modified_task then some final_task else none }
              boss_decision :=
                { selected_agent := b.selected_agent
                  reasoning := b.reasoning }
              execution :=
                { agent_name := sel.name
                  agent_id := sel.id
                  was_executed := env.execute_task
                  response := agent_response
                  execution_time :=
                    if env.execute_task then some meta.execution_time else none }
              total_time := meta.total_time })

/-- The value/exception outcome of one `route_task` call; the
conversation log is write-only inside `route_task`, so the outcome
does not depend on it (proved in `route_task_conv_irrelevant`). -/
def MultiAgentRouter.routeResult (env : MultiAgentRouter) (meta : CallMeta)
    (task : String) : Except String TaskRecord :=
  (env.route_task meta [] task).2

/-- Method `batch_run` (lines 243-252) over tasks paired with the ambient
values their calls consume: route each task in order, append the
result on success, log and continue on failure. -/
def MultiAgentRouter.batch_run (env : MultiAgentRouter)
    (conv : List Turn) : List (String × CallMeta) → List Turn × List TaskRecord
  | [] => (conv, [])
  | (t, m) :: rest =>
      let step := env.route_task m conv t
      let next := env.batch_run step.1 rest
      match step.2 with
      | .ok r => (next.1, r :: next.2)
      | .error _ => (next.1, next.2)

/-- One iteration of the `as_completed` loop (lines 265-270): append
the future's result on success, log and continue on failure. -/
def collectResult (env : MultiAgentRouter) (acc : List TaskRecord)
    (p : String × CallMeta) : List TaskRecord :=
  match env.routeResult p.2 p.1 with
  | .ok r => acc ++ [r]
  | .error _ => acc

/-- Method `concurrent_batch_run` (lines 254-271): every task is submitted
to a thread pool and the `as_completed` loop collects results in
completion order, appending successes and logging failures.
`completed` is the list of (task, ambient values) pairs in the order
their futures complete. -/
def MultiAgentRouter.concurrent_batch_run (env : MultiAgentRouter)
    (completed : List (String × CallMeta)) : List TaskRecord :=
  completed.foldl (collectResult env) []

/-! ### Lemmas about the router embedding -/

/-- Method `route_task` writes to the conversation log but never reads it:
its value/exception outcome is the same for every incoming log. -/
theorem route_task_conv_irrelevant (env : MultiAgentRouter) (meta : CallMeta)
    (conv : List Turn) (task : String) :
    (env.route_task meta conv task).2 = env.routeResult meta task := by
  unfold MultiAgentRouter.routeResult MultiAgentRouter.route_task
  cases env.function_caller task with
  | none => rfl
  | some b =>
      dsimp only
      cases registryLookup env.agents b.selected_agent with
      | none => rfl
      | some sel => cases env.execute_task <;> rfl

/-- Registry lookup fails exactly for names outside the registered names. -/
theorem registryLookup_none_iff (agents : List Agent) (n : String) :
    registryLookup agents n = none ↔ n ∉ registeredNames agents := by
  unfold registryLookup registeredNames
  rw [List.getLast?_eq_none_iff]
  constructor
  · intro h hmem
    obtain ⟨a, ha, hn⟩ := List.mem_map.mp hmem
    have hmm : a ∈ agents.filter (fun a => a.name == n) := by
      rw [List.mem_filter]
      exact ⟨ha, by simp [hn]⟩
    rw [h] at hmm
    cases hmm
  · intro h
    rw [List.filter_eq_nil_iff]
    intro a ha
    simp only [beq_iff_eq]
    exact fun hn => h (List.mem_map.mpr ⟨a, ha, hn⟩)

/-- A successful registry lookup means the name is registered. -/
theorem registryLookup_some_mem (agents : List Agent) (n : String) (a : Agent)
    (h : registryLookup agents n = some a) : n ∈ registeredNames agents := by
  by_contra hmem
  have hnone := (registryLookup_none_iff agents n).mpr hmem
  rw [h] at hnone
  cases hnone

/-- The result list of `batch_run` is the in-order collection of the
successful outcomes. -/
theorem batch_run_snd (env : MultiAgentRouter) (conv : List Turn)
    (pairs : List (String × CallMeta)) :
    (env.batch_run conv pairs).2
      = pairs.filterMap (fun p => (env.routeResult p.2 p.1).toOption) := by
  induction pairs generalizing conv with
  | nil => rfl
  | cons p rest ih =>
      obtain ⟨t, m⟩ := p
      simp only [MultiAgentRouter.batch_run, List.filterMap_cons]
      rw [route_task_conv_irrelevant]
      cases h : env.routeResult m t with
      | ok r => simp [Except.toOption, ih]
      | error e => simp [Except.toOption, ih]

/-- Collecting successes by appending, in any traversal order, is
`filterMap` of that order. -/
theorem foldl_collectResult_eq_filterMap (env : MultiAgentRouter)
    (l : List (String × CallMeta)) : ∀ acc : List TaskRecord,
    l.foldl (collectResult env) acc
      = acc ++ l.filterMap (fun p => (env.routeResult p.2 p.1).toOption) := by
  induction l with
  | nil => intro acc; simp
  | cons p rest ih =>
      intro acc
      simp only [List.foldl_cons, List.filterMap_cons]
      cases hg : env.routeResult p.2 p.1 with
      | ok r =>
          have hstep : collectResult env acc p = acc ++ [r] := by
            unfold collectResult
            rw [hg]
          rw [hstep, ih]
          simp [Except.toOption]
      | error e =>
          have hstep : collectResult env acc p = acc := by
            unfold collectResult
            rw [hg]
          rw [hstep, ih]
          simp [Except.toOption]

/-- Method `concurrent_batch_run` collects the successful outcomes of the
completion-ordered calls. -/
theorem concurrent_batch_run_eq_filterMap (env : MultiAgentRouter)
    (completed : List (String × CallMeta)) :
    env.concurrent_batch_run completed
      = completed.filterMap (fun p => (env.routeResult p.2 p.1).toOption) := by
  unfold MultiAgentRouter.concurrent_batch_run
  simpa using foldl_collectResult_eq_filterMap env completed []

/-! ### List lemmas for the batch and concurrent claims -/

theorem filterMap_all_some_length {σ ρ : Type} (f : σ → Option ρ) :
    ∀ l : List σ,
    (∀ i (hi : i < l.length), f (l.get ⟨i, hi⟩) ≠ none) →
    (l.filterMap f).length = l.length := by
  intro l
  induction l with
  | nil => intro _; rfl
  | cons a rest ih =>
      intro h
      have ha : f a ≠ none := h 0 (by simp)
      cases hfa : f a with
      | none => exact absurd hfa ha
      | some b =>
          simp only [List.filterMap_cons, hfa, List.length_cons]
          rw [ih (fun i hi => h (i + 1) (by simpa using Nat.succ_lt_succ hi))]

/-- Dropping the unique failing position from the input leaves the
`filterMap` unchanged, and the output is one shorter than the input. -/
theorem filterMap_eraseIdx_of_fail {σ ρ : Type} (f : σ → Option ρ) :
    ∀ (l : List σ) (j : Nat) (hj : j < l.length),
    f (l.get ⟨j, hj⟩) = none →
    (∀ i (hi : i < l.length), i ≠ j → f (l.get ⟨i, hi⟩) ≠ none) →
    l.filterMap f = (l.eraseIdx j).filterMap f
    ∧ (l.filterMap f).length = l.length - 1 := by
  intro l
  induction l with
  | nil => intro j hj; simp at hj
  | cons a rest ih =>
      intro j hj hfail hok
      cases j with
      | zero =>
          have ha : f a = none := hfail
          have hrest : ∀ i (hi : i < rest.length), f (rest.get ⟨i, hi⟩) ≠ none :=
            fun i hi => hok (i + 1) (Nat.succ_lt_succ hi) (Nat.succ_ne_zero i)
          constructor
          · simp [List.filterMap_cons, ha, List.eraseIdx_cons_zero]
          · simp only [List.filterMap_cons, ha, List.length_cons]
            rw [filterMap_all_some_length f rest hrest]
            omega
      | succ j1 =>
          have hj1 : j1 < rest.length := Nat.lt_of_succ_lt_succ hj
          have ha : f a ≠ none := hok 0 (by simp) (by omega)
          cases hfa : f a with
          | none => exact absurd hfa ha
          | some b =>
              have hfail1 : f (rest.get ⟨j1, hj1⟩) = none := hfail
              have hok1 : ∀ i (hi : i < rest.length), i ≠ j1 →
                  f (rest.get ⟨i, hi⟩) ≠ none :=
                fun i hi hne =>
                  hok (i + 1) (Nat.succ_lt_succ hi) (by omega)
              obtain ⟨ih1, ih2⟩ := ih j1 hj1 hfail1 hok1
              rw [List.eraseIdx_cons_succ]
              constructor
              · simp only [List.filterMap_cons, hfa]
                rw [ih1]
              · simp only [List.filterMap_cons, hfa, List.length_cons]
                omega

theorem zip_eraseIdx {σ τ : Type} :
    ∀ (l1 : List σ) (l2 : List τ) (j : Nat),
    (l1.eraseIdx j).zip (l2.eraseIdx j) = (l1.zip l2).eraseIdx j := by
  intro l1
  induction l1 with
  | nil => intro l2 j; simp
  | cons a r1 ih =>
      intro l2 j
      cases l2 with
      | nil => simp
      | cons b r2 =>
          cases j with
          | zero => simp [List.eraseIdx_cons_zero, List.zip_cons_cons]
          | succ j1 => simp [List.eraseIdx_cons_succ, List.zip_cons_cons, ih]

/-- Contents of the result slots after the scheduled writes: every
index written by the schedule holds its own call's result, every other
slot is untouched. -/
theorem runSchedule_getElem (g : Nat → γ) :
    ∀ (order : List Nat) (slots : List (Option γ)) (j : Nat),
    (order.foldl (fun acc i => acc.set i (some (g i))) slots)[j]?
      = if j ∈ order ∧ j < slots.length then some (some (g j)) else slots[j]? := by
  intro order
  induction order with
  | nil => intro slots j; simp
  | cons i rest ih =>
      intro slots j
      rw [List.foldl_cons, ih]
      by_cases hjr : j ∈ rest
      · by_cases hlen : j < slots.length
        · simp [hjr, hlen, List.length_set]
        · have h1 : slots[j]? = none := List.getElem?_eq_none (by omega)
          have h2 : (slots.set i (some (g i)))[j]? = none :=
            List.getElem?_eq_none (by rw [List.length_set]; omega)
          simp [hjr, hlen, List.length_set, h1, h2]
      · by_cases hij : i = j
        · subst hij
          by_cases hlen : i < slots.length
          · simp [hjr, hlen, List.length_set, List.getElem?_set, List.mem_cons]
          · have hnone : slots[i]? = none := List.getElem?_eq_none (by omega)
            simp [hjr, hlen, List.length_set, List.getElem?_set, hnone]
        · have hji : ¬j = i := fun h => hij (Eq.symm h)
          simp [hjr, hij, hji, List.length_set, List.getElem?_set, List.mem_cons]

/-! ### Concrete sample environments, used by the witnesses -/

/-- A caller whose endpoint returns a fence-wrapped reply and whose
parser accepts everything. -/
def sampleCaller : LiteLLMFunctionCaller Nat Nat :=
  { complete := fun _ => some "```json\n42\n```"
    jsonLoads := fun _ => some 42
    validate := fun n => some n }

/-- A caller whose reply never parses as JSON. -/
def failingCaller : LiteLLMFunctionCaller Nat Nat :=
  { complete := fun _ => some "nonsense"
    jsonLoads := fun _ => none
    validate := fun n => some n }

/-- A caller that succeeds exactly on the reply text "42"; the task
"bad" makes the endpoint itself raise. -/
def mixedCaller : LiteLLMFunctionCaller Nat Nat :=
  { complete := fun t => if t == "bad" then none else some t
    jsonLoads := fun s => if s == "42" then some 42 else none
    validate := fun n => some n }

/-! ### Claims about the Model Caller -/

/-- C6: whenever the (fence-stripped) reply content fails to parse as
JSON, or parses but fails validation against the declared schema,
`run` returns `None`; the `except` swallows the exception, so nothing
propagates to the caller. -/
theorem caller_run_none_on_decode_failure {α β : Type}
    (env : LiteLLMFunctionCaller α β) (task content : String)
    (hc : env.complete task = some content)
    (hfail : env.jsonLoads (stripFences content) = none
      ∨ ∃ p, env.jsonLoads (stripFences content) = some p ∧ env.validate p = none) :
    env.run task = none := by
  unfold LiteLLMFunctionCaller.run
  rw [hc]
  dsimp only
  unfold LiteLLMFunctionCaller.runContent
  cases hfail with
  | inl h => rw [h]
  | inr h =>
      obtain ⟨p, hp, hv⟩ := h
      rw [hp]
      exact hv

theorem caller_run_none_on_decode_failure_witness :
    failingCaller.complete "q" = some "nonsense"
    ∧ failingCaller.jsonLoads (stripFences "nonsense") = none
    ∧ failingCaller.run "q" = none :=
  ⟨rfl, rfl,
    caller_run_none_on_decode_failure failingCaller "q" "nonsense" rfl (Or.inl rfl)⟩

/-- C7: for every JSON text `t` (in particular, any text not itself
starting with a json fence) and any parser that ignores surrounding
whitespace — `json.loads` does — `run` computes the same result from a
reply wrapped as three-backticks-json, newline, `t`, newline, three
backticks as from the bare reply `t`. -/
theorem caller_fence_wrapped_parses_as_bare {α β : Type}
    (env : LiteLLMFunctionCaller α β) (task t : String)
    (hws : ∀ s, env.jsonLoads (pyStripWs s) = env.jsonLoads s)
    (hnp : pyStartswith "```json" t = false) :
    LiteLLMFunctionCaller.run
        { env with complete := fun _ => some ("```json\n" ++ t ++ "\n```") } task
      = LiteLLMFunctionCaller.run { env with complete := fun _ => some t } task := by
  unfold LiteLLMFunctionCaller.run LiteLLMFunctionCaller.runContent
  dsimp only
  rw [stripFences_wrapped, stripFences_bare t hnp, hws]

theorem caller_fence_wrapped_parses_as_bare_witness :
    pyStartswith "```json" "42" = false
    ∧ LiteLLMFunctionCaller.run
        { sampleCaller with complete := fun _ => some ("```json\n" ++ "42" ++ "\n```") } "q"
      = LiteLLMFunctionCaller.run { sampleCaller with complete := fun _ => some "42" } "q" :=
  ⟨by decide,
    caller_fence_wrapped_parses_as_bare sampleCaller "q" "42" (fun _ => rfl) (by decide)⟩

/-- Slot contents of `runSchedule` started from the empty (all-`none`)
slot array. -/
theorem runSchedule_slots_getElem (g : Nat → γ) (n : Nat) (order : List Nat)
    (j : Nat) :
    (runSchedule g n order)[j]?
      = if j ∈ order ∧ j < n then some (some (g j))
        else if j < n then some none else none := by
  unfold runSchedule
  rw [runSchedule_getElem]
  simp [List.getElem?_replicate]

/-- C5 counterexample: the claim quantifies over every list of tasks,
but at the empty list `batch_run` returns the empty sequence while
`concurrent_run` raises the `ValueError` of a zero-worker pool
(`ThreadPoolExecutor(max_workers=len(tasks))` with `len(tasks) = 0`)
and returns no sequence at all — so `concurrent_run` does not return
the same sequence as `batch_run` on that input. -/
theorem caller_concurrent_run_raises_on_empty :
    mixedCaller.batch_run [] = []
    ∧ mixedCaller.concurrent_run [] []
        = .error "ValueError: max_workers must be greater than 0"
    ∧ ∀ rs : List (Option (Option Nat)),
        mixedCaller.concurrent_run [] [] ≠ .ok rs :=
  ⟨rfl, rfl, fun _ h => Except.noConfusion h⟩

/-- C5 (amended: the equal-sequences part holds for every NONEMPTY
list of tasks; at the empty list `concurrent_run` raises the
zero-worker `ValueError` instead of returning a sequence, see the
counterexample): `batch_run` returns one result per task, positionally
the result of `run` on that task (a failing task contributes `none` at
its position, it is not dropped); and `concurrent_run`, for every
completion order of the worker pool, returns exactly the same sequence
— position, not completion time, determines the output slot. -/
theorem caller_batch_concurrent_positional {α β : Type}
    (env : LiteLLMFunctionCaller α β) (tasks : List String) (order : List Nat)
    (hne : tasks ≠ [])
    (hperm : List.Perm order (List.range tasks.length)) :
    (env.batch_run tasks).length = tasks.length
    ∧ (∀ i : Nat, (env.batch_run tasks)[i]? = Option.map env.run tasks[i]?)
    ∧ env.concurrent_run tasks order = .ok ((env.batch_run tasks).map some) := by
  refine ⟨by simp [LiteLLMFunctionCaller.batch_run], ?_, ?_⟩
  · intro i
    simp [LiteLLMFunctionCaller.batch_run, List.getElem?_map]
  · unfold LiteLLMFunctionCaller.concurrent_run
    rw [if_neg (fun h => hne (List.length_eq_zero.mp h))]
    congr 1
    apply List.ext_getElem?
    intro j
    rw [runSchedule_slots_getElem]
    have hmem : j ∈ order ↔ j < tasks.length := by
      rw [hperm.mem_iff, List.mem_range]
    by_cases hj : j < tasks.length
    · rw [if_pos ⟨hmem.mpr hj, hj⟩]
      rw [LiteLLMFunctionCaller.batch_run, List.getElem?_map, List.getElem?_map,
        List.getElem?_eq_getElem hj]
      rw [List.getD_eq_getElem tasks "" hj]
      rfl
    · rw [if_neg (fun h => hj h.2), if_neg hj]
      have hlen : ((env.batch_run tasks).map some).length ≤ j := by
        simp [LiteLLMFunctionCaller.batch_run]
        omega
      rw [List.getElem?_eq_none hlen]

theorem caller_batch_concurrent_positional_witness :
    ["42", "bad"] ≠ ([] : List String)
    ∧ List.Perm [1, 0] (List.range ["42", "bad"].length)
    ∧ ((mixedCaller.batch_run ["42", "bad"]).length = ["42", "bad"].length
      ∧ (∀ i : Nat, (mixedCaller.batch_run ["42", "bad"])[i]?
          = Option.map mixedCaller.run (["42", "bad"])[i]?)
      ∧ mixedCaller.concurrent_run ["42", "bad"] [1, 0]
          = .ok ((mixedCaller.batch_run ["42", "bad"]).map some)) :=
  ⟨by decide, by decide,
    caller_batch_concurrent_positional mixedCaller ["42", "bad"] [1, 0]
      (by decide) (by decide)⟩

/-! ### Router sample environments, used by the witnesses -/

def agentA : Agent :=
  { name := "A", id := "agent-id-A", description := "handles math",
    run := fun t => "answer to " ++ t }

def agentB : Agent :=
  { name := "B", id := "agent-id-B", description := "handles greetings",
    run := fun _ => "hello" }

/-- A deterministic decision step: raises (returns `None`) on the task
"bad", otherwise selects agent "A" and proposes the modified task "M". -/
def decisionFor (t : String) : Option AgentResponse :=
  if t == "bad" then none
  else some { selected_agent := "A", reasoning := "math task", modified_task := some "M" }

def sampleRouter : MultiAgentRouter :=
  { agents := [agentA, agentB]
    execute_task := true
    function_caller := decisionFor
    any_to_str := fun _ => "decision" }

/-- A router whose decision step names the unregistered handler "C". -/
def strayRouter : MultiAgentRouter :=
  { agents := [agentA, agentB]
    execute_task := true
    function_caller := fun _ =>
      some { selected_agent := "C", reasoning := "oops", modified_task := none }
    any_to_str := fun _ => "decision" }

def meta1 : CallMeta :=
  { freshId := "uuid-1", timestamp := "ts-1", execution_time := 1, total_time := 2 }

def meta2 : CallMeta :=
  { freshId := "uuid-2", timestamp := "ts-2", execution_time := 3, total_time := 4 }

def meta3 : CallMeta :=
  { freshId := "uuid-3", timestamp := "ts-3", execution_time := 5, total_time := 6 }

/-! ### Lemma: the exact shape of a successful `route_task` -/

/-- When the decision step returns `b` and `b.selected_agent` resolves
to the registered agent `sel`, `route_task` returns the fully assembled
record and the log grown by the user turn, the assistant turn, and (if
executing) the handler turn. -/
theorem route_task_ok_shape (env : MultiAgentRouter) (meta : CallMeta)
    (conv : List Turn) (task : String) (b : AgentResponse) (sel : Agent)
    (hb : env.function_caller task = some b)
    (hsel : registryLookup env.agents b.selected_agent = some sel) :
    env.route_task meta conv task
      = (conv ++ [⟨"user", task⟩, ⟨"assistant", env.any_to_str (some b)⟩]
            ++ (if env.execute_task then [⟨sel.name, sel.run task⟩] else []),
         .ok { id := meta.freshId
               timestamp := meta.timestamp
               task := { original := task
                         modified := if pyTruthy b.modified_task then some task else none }
               boss_decision := { selected_agent := b.selected_agent
                                  reasoning := b.reasoning }
               execution := { agent_name := sel.name
                              agent_id := sel.id
                              was_executed := env.execute_task
                              response :=
                                if env.execute_task then some (sel.run task) else none
                              execution_time :=
                                if env.execute_task then some meta.execution_time else none }
               total_time := meta.total_time }) := by
  unfold MultiAgentRouter.route_task
  rw [hb]
  dsimp only
  rw [hsel]
  dsimp only
  cases hex : env.execute_task <;> simp

/-! ### Claims about the Router -/

/-- C1: if `route_task` returns a TaskRecord, its
`boss_decision.selected_agent` is one of the registered handler names;
and if the decision step returns a name not in the registry,
`route_task` raises (the `ValueError` of lines 165-167) and no
TaskRecord is returned. -/
theorem route_task_selected_agent_registered (env : MultiAgentRouter)
    (meta : CallMeta) (conv : List Turn) (task : String) :
    (∀ r : TaskRecord, (env.route_task meta conv task).2 = .ok r →
        r.boss_decision.selected_agent ∈ registeredNames env.agents)
    ∧ (∀ b : AgentResponse, env.function_caller task = some b →
        b.selected_agent ∉ registeredNames env.agents →
        ∃ e, (env.route_task meta conv task).2 = .error e) := by
  constructor
  · intro r hr
    cases hb : env.function_caller task with
    | none =>
        rw [route_task_conv_irrelevant] at hr
        unfold MultiAgentRouter.routeResult MultiAgentRouter.route_task at hr
        rw [hb] at hr
        simp at hr
    | some b =>
        cases hsel : registryLookup env.agents b.selected_agent with
        | none =>
            rw [route_task_conv_irrelevant] at hr
            unfold MultiAgentRouter.routeResult MultiAgentRouter.route_task at hr
            rw [hb] at hr
            dsimp only at hr
            rw [hsel] at hr
            simp at hr
        | some sel =>
            rw [route_task_ok_shape env meta conv task b sel hb hsel] at hr
            dsimp only at hr
            injection hr with hrec
            rw [← hrec]
            exact registryLookup_some_mem env.agents b.selected_agent sel hsel
  · intro b hb hnot
    have hsel : registryLookup env.agents b.selected_agent = none :=
      (registryLookup_none_iff env.agents b.selected_agent).mpr hnot
    refine ⟨"Boss selected unknown agent: " ++ b.selected_agent, ?_⟩
    unfold MultiAgentRouter.route_task
    rw [hb]
    dsimp only
    rw [hsel]

theorem route_task_selected_agent_registered_witness :
    (∃ r : TaskRecord, (sampleRouter.route_task meta1 [] "T").2 = .ok r
      ∧ r.boss_decision.selected_agent ∈ registeredNames sampleRouter.agents)
    ∧ (∃ e, (strayRouter.route_task meta1 [] "T").2 = .error e) := by
  constructor
  · refine ⟨_, rfl, ?_⟩
    exact (route_task_selected_agent_registered sampleRouter meta1 [] "T").1 _ rfl
  · exact (route_task_selected_agent_registered strayRouter meta1 [] "T").2
      { selected_agent := "C", reasoning := "oops", modified_task := none }
      rfl (by decide)

/-- C2 (claim contradicted by the code): the claim says the returned
record's `task.modified` equals the decision's modified-task text.  On
line 174 the source sets `final_task = task` (the variant using
`boss_response.modified_task` on line 173 is commented out), and line
202-206 stores `final_task` — the ORIGINAL task text — in the
`modified` field whenever the decision's modified task is truthy.  At
the failing input below, the decision proposes the modified task "M"
for the task "T", yet the record stores `modified = some "T"`. -/
theorem route_task_modified_field_is_original :
    sampleRouter.function_caller "T"
      = some { selected_agent := "A", reasoning := "math task", modified_task := some "M" }
    ∧ ∃ r : TaskRecord, (sampleRouter.route_task meta1 [] "T").2 = .ok r
      ∧ r.task.modified = some "T"
      ∧ r.task.modified ≠ some "M" := by
  refine ⟨rfl, _, rfl, rfl, by decide⟩

/-- C3: with execution enabled, the selected handler's `run` entry
point is invoked with the original task text exactly as supplied —
never with the model-proposed modified task, even when one is present
(note `b.modified_task` is arbitrary here): the stored response is
`sel.run task` and the turn logged under the handler's name carries
`sel.run task`. -/
theorem route_task_executes_original_task (env : MultiAgentRouter)
    (meta : CallMeta) (conv : List Turn) (task : String)
    (b : AgentResponse) (sel : Agent)
    (hb : env.function_caller task = some b)
    (hsel : registryLookup env.agents b.selected_agent = some sel)
    (hexec : env.execute_task = true) :
    ∃ r : TaskRecord, (env.route_task meta conv task).2 = .ok r
      ∧ r.execution.response = some (sel.run task)
      ∧ (⟨sel.name, sel.run task⟩ : Turn) ∈ (env.route_task meta conv task).1 := by
  rw [route_task_ok_shape env meta conv task b sel hb hsel, hexec]
  exact ⟨_, rfl, by simp, by simp⟩

theorem route_task_executes_original_task_witness :
    sampleRouter.function_caller "T"
      = some { selected_agent := "A", reasoning := "math task", modified_task := some "M" }
    ∧ sampleRouter.execute_task = true
    ∧ ∃ r : TaskRecord, (sampleRouter.route_task meta1 [] "T").2 = .ok r
      ∧ r.execution.response = some (agentA.run "T")
      ∧ (⟨agentA.name, agentA.run "T"⟩ : Turn) ∈ (sampleRouter.route_task meta1 [] "T").1 :=
  ⟨rfl, rfl,
    route_task_executes_original_task sampleRouter meta1 [] "T"
      { selected_agent := "A", reasoning := "math task", modified_task := some "M" }
      agentA rfl rfl rfl⟩

/-- The fields of a TaskRecord other than the fresh id, the timestamp
and the two timing measurements. -/
def recordCore (r : TaskRecord) :
    TaskInfo × BossDecision × String × String × Bool × Option String :=
  (r.task, r.boss_decision, r.execution.agent_name, r.execution.agent_id,
    r.execution.was_executed, r.execution.response)

/-- C9: the decision step and the handlers are (modelled as)
deterministic functions of the task, so two `route_task` calls with the
identical task against an unchanged registry agree on every field
except the fresh id, the timestamp and the timing values — in
particular on `selected_agent` and `response` — whatever ambient values
and conversation logs the two calls see. -/
theorem route_task_deterministic_modulo_meta (env : MultiAgentRouter)
    (m1 m2 : CallMeta) (conv1 conv2 : List Turn) (task : String) :
    Option.map recordCore ((env.route_task m1 conv1 task).2).toOption
      = Option.map recordCore ((env.route_task m2 conv2 task).2).toOption := by
  rw [route_task_conv_irrelevant, route_task_conv_irrelevant]
  unfold MultiAgentRouter.routeResult MultiAgentRouter.route_task
  cases env.function_caller task with
  | none => rfl
  | some b =>
      dsimp only
      cases registryLookup env.agents b.selected_agent with
      | none => rfl
      | some sel => cases env.execute_task <;> rfl

/-- C10: `route_task` is not atomic with respect to the conversation
log: when the decision step names an unregistered handler the call
raises and returns no record, yet the log has grown by exactly the two
turns added before validation — the user turn holding the task and the
assistant turn holding the stringified decision. -/
theorem failed_route_appends_two_turns (env : MultiAgentRouter)
    (meta : CallMeta) (conv : List Turn) (task : String) (b : AgentResponse)
    (hb : env.function_caller task = some b)
    (hnot : b.selected_agent ∉ registeredNames env.agents) :
    env.route_task meta conv task
      = (conv ++ [⟨"user", task⟩, ⟨"assistant", env.any_to_str (some b)⟩],
         .error ("Boss selected unknown agent: " ++ b.selected_agent)) := by
  have hsel : registryLookup env.agents b.selected_agent = none :=
    (registryLookup_none_iff env.agents b.selected_agent).mpr hnot
  unfold MultiAgentRouter.route_task
  rw [hb]
  dsimp only
  rw [hsel]
  simp

theorem failed_route_appends_two_turns_witness :
    strayRouter.function_caller "T"
      = some { selected_agent := "C", reasoning := "oops", modified_task := none }
    ∧ ("C" ∉ registeredNames strayRouter.agents)
    ∧ strayRouter.route_task meta1 [] "T"
        = ([⟨"user", "T"⟩, ⟨"assistant", strayRouter.any_to_str
              (some { selected_agent := "C", reasoning := "oops", modified_task := none })⟩],
           .error ("Boss selected unknown agent: " ++ "C")) := by
  refine ⟨rfl, by decide, ?_⟩
  have h := failed_route_appends_two_turns strayRouter meta1 [] "T"
    { selected_agent := "C", reasoning := "oops", modified_task := none } rfl (by decide)
  simpa using h

/-- C4: when exactly the task at position `j` makes `route_task` raise
(every other position succeeds), `batch_run` returns exactly k-1
results — the same result list as for the input with task `j` removed,
so the surviving results keep input order with no placeholder at `j`,
and the failure never prevents the remaining tasks from producing
results. Each call consumes its own ambient values (`metas`). -/
theorem batch_run_omits_failing_task (env : MultiAgentRouter) (conv : List Turn)
    (tasks : List String) (metas : List CallMeta)
    (hlen : metas.length = tasks.length)
    (j : Nat) (hj : j < tasks.length)
    (hfail : (env.routeResult (metas.get ⟨j, by omega⟩) (tasks.get ⟨j, hj⟩)).toOption
        = none)
    (hok : ∀ i (hi : i < tasks.length), i ≠ j →
        (env.routeResult (metas.get ⟨i, by omega⟩) (tasks.get ⟨i, hi⟩)).toOption
          ≠ none) :
    (env.batch_run conv (tasks.zip metas)).2
      = (env.batch_run conv ((tasks.eraseIdx j).zip (metas.eraseIdx j))).2
    ∧ ((env.batch_run conv (tasks.zip metas)).2).length = tasks.length - 1 := by
  have hzlen : (tasks.zip metas).length = tasks.length := by
    rw [List.length_zip, hlen, Nat.min_self]
  have hjz : j < (tasks.zip metas).length := by omega
  have hget : ∀ i (hi : i < (tasks.zip metas).length),
      (tasks.zip metas).get ⟨i, hi⟩
        = (tasks.get ⟨i, by omega⟩, metas.get ⟨i, by omega⟩) := by
    intro i hi
    rw [List.get_eq_getElem, List.getElem_zip]
    simp [List.get_eq_getElem]
  have hfail2 : (fun p => (env.routeResult p.2 p.1).toOption)
      ((tasks.zip metas).get ⟨j, hjz⟩) = none := by
    rw [hget j hjz]
    exact hfail
  have hok2 : ∀ i (hi : i < (tasks.zip metas).length), i ≠ j →
      (fun p => (env.routeResult p.2 p.1).toOption)
        ((tasks.zip metas).get ⟨i, hi⟩) ≠ none := by
    intro i hi hne
    rw [hget i hi]
    exact hok i (by omega) hne
  obtain ⟨h1, h2⟩ := filterMap_eraseIdx_of_fail
    (fun p => (env.routeResult p.2 p.1).toOption) (tasks.zip metas) j hjz hfail2 hok2
  constructor
  · rw [batch_run_snd, batch_run_snd, zip_eraseIdx]
    exact h1
  · rw [batch_run_snd]
    rw [h2, hzlen]

theorem batch_run_omits_failing_task_witness :
    (sampleRouter.routeResult meta2 "bad").toOption = none
    ∧ (sampleRouter.routeResult meta1 "t1").toOption ≠ none
    ∧ (sampleRouter.batch_run [] (["t1", "bad", "t2"].zip [meta1, meta2, meta3])).2
        = (sampleRouter.batch_run []
            ((["t1", "bad", "t2"].eraseIdx 1).zip ([meta1, meta2, meta3].eraseIdx 1))).2
    ∧ ((sampleRouter.batch_run [] (["t1", "bad", "t2"].zip [meta1, meta2, meta3])).2).length
        = 2 := by
  have h := batch_run_omits_failing_task sampleRouter [] ["t1", "bad", "t2"]
    [meta1, meta2, meta3] rfl 1 (by decide) (by decide) (by decide)
  exact ⟨by decide, by decide, h.1, h.2⟩

/-- C8: for every completion order of the thread pool — any permutation
of the submitted (task, ambient values) pairs — the results collected
by `concurrent_batch_run`, taken as an unordered collection, are a
permutation of (hence equal as a multiset to) the results `batch_run`
produces on the same inputs: exactly the successful tasks' records,
though possibly in a different order. -/
theorem concurrent_results_perm_batch_results (env : MultiAgentRouter)
    (conv : List Turn) (tasks : List String) (metas : List CallMeta)
    (completed : List (String × CallMeta))
    (hperm : List.Perm completed (tasks.zip metas)) :
    List.Perm (env.concurrent_batch_run completed)
      ((env.batch_run conv (tasks.zip metas)).2) := by
  rw [concurrent_batch_run_eq_filterMap, batch_run_snd]
  exact hperm.filterMap _

theorem concurrent_results_perm_batch_results_witness :
    List.Perm [("bad", meta2), ("t2", meta3), ("t1", meta1)]
      (["t1", "bad", "t2"].zip [meta1, meta2, meta3])
    ∧ List.Perm
        (sampleRouter.concurrent_batch_run [("bad", meta2), ("t2", meta3), ("t1", meta1)])
        ((sampleRouter.batch_run [] (["t1", "bad", "t2"].zip [meta1, meta2, meta3])).2) :=
  ⟨by decide,
    concurrent_results_perm_batch_results sampleRouter [] ["t1", "bad", "t2"]
      [meta1, meta2, meta3] [("bad", meta2), ("t2", meta3), ("t1", meta1)] (by decide)⟩

end AgentRecommend
